import Mathlib

/-!
Shallow embedding of the loop4r_read bridge (src/Source/Main.cpp) and proofs
about its LED state machine, heartbeat supervision, OSC message handlers and
pedal MIDI handler.

Modelling conventions:
* C++ `int` is `Int`; machine widths never matter on the values involved.
* The `LoopStates` enum is represented by its underlying `Int` values, because
  the code casts an arbitrary float from the wire into the enum and relies on
  the `default:` case for unlisted values.
* The fixed LED pool `leds_` is a `List LED`; mutation through JUCE
  `Array::getReference` becomes functional update at the same position.
  Accesses whose bounds the C++ code does not check (`getReference` past the
  end, OSC argument iterator dereferenced past `end()`) are modelled by
  `Option`-valued handlers: `none` marks an out-of-bounds access (undefined
  behaviour in the C++), `some` a completed call.
* Side effects (MIDI note/CC output, outbound OSC requests) are collected in
  an event trace `List Ev`.  The per-LED OSC broadcast duplicated inside
  `ledOn`/`ledOff`/`selectLoop` is folded into the single logical event.
* A float32 OSC argument is carried as the `Int` the code converts it to
  (both uses immediately assign it to an `int`).
-/

namespace Loop4r

/-- LED visual states, from `enum LedStates`. -/
inductive LedStates where
  | Dark
  | Light
  | Blink
  | FastBlink
deriving DecidableEq

/- Underlying integer values of `enum LoopStates`. -/
namespace LoopStates

@[simp] def Unknown : Int := -1
@[simp] def Off : Int := 0
@[simp] def WaitStart : Int := 1
@[simp] def Recording : Int := 2
@[simp] def WaitStop : Int := 3
@[simp] def Playing : Int := 4
@[simp] def Overdubbing : Int := 5
@[simp] def Multiplying : Int := 6
@[simp] def Inserting : Int := 7
@[simp] def Replacing : Int := 8
@[simp] def Delay : Int := 9
@[simp] def Muted : Int := 10
@[simp] def Scratching : Int := 11
@[simp] def OneShot : Int := 12
@[simp] def Substitute : Int := 13
@[simp] def Paused : Int := 14

end LoopStates

/-- Blink timer constants. -/
@[simp] def TIMER_OFF : Int := 0
@[simp] def TIMER_FASTBLINK : Int := 1
@[simp] def TIMER_BLINK : Int := 3

/-- Pedal index constants. -/
@[simp] def RECORD : Int := 4
@[simp] def MULTIPLY : Int := 5
@[simp] def INSERT : Int := 6
@[simp] def REPLACE : Int := 7
@[simp] def SUBSTITUTE : Int := 8
@[simp] def UNDO : Int := 9
@[simp] def UP : Int := 10
@[simp] def DOWN : Int := 11

/-- One LED of the fixed pool of 10 (`struct LED`). -/
structure LED where
  index_ : Int
  on_ : Bool
  timer_ : Int
  state_ : LedStates
deriving DecidableEq

/-- One loop slot (`struct Loop`); the LED back-reference is the index. -/
structure Loop where
  index_ : Int
  state_ : Int
deriving DecidableEq

/-- Observable outputs of the bridge. -/
inductive Ev where
  | noteOn (ch note vel : Int)
  | noteOff (ch note vel : Int)
  | ledOn (i : Int)
  | ledOff (i : Int)
  | ccOut (num val : Int)
  | oscPing
  | oscRegisterAuto (i : Int)
  | oscGet (i : Int)
  | oscRegisterGlobal
  | forwardRaw
deriving DecidableEq

/-- The ten LEDs created in the constructor. -/
def initLeds : List LED :=
  (List.range 10).map (fun i => ⟨(i : Int), false, TIMER_OFF, LedStates.Dark⟩)

/-- Functional update of one list position. -/
def ledModify (f : LED → LED) : Nat → List LED → List LED
  | _, [] => []
  | 0, l :: ls => f l :: ls
  | n + 1, l :: ls => l :: ledModify f n ls

/-- `ledOn`: mark the LED on and emit the LED-on command. -/
def ledOn (leds : List LED) (pedalIdx : Int) : List LED × List Ev :=
  (ledModify (fun l => { l with on_ := true }) pedalIdx.toNat leds, [Ev.ledOn pedalIdx])

/-- `ledOff`: mark the LED off and emit the LED-off command. -/
def ledOff (leds : List LED) (pedalIdx : Int) : List LED × List Ev :=
  (ledModify (fun l => { l with on_ := false }) pedalIdx.toNat leds, [Ev.ledOff pedalIdx])

/-- The `loop.led_.state_ = …; loop.led_.timer_ = …` assignment pair. -/
def setVis (leds : List LED) (idx : Int) (v : LedStates) (t : Int) : List LED :=
  ledModify (fun l => { l with state_ := v, timer_ := t }) idx.toNat leds

/-- The second `switch` of `updateLoopLedState`: turn off the shared action
LED of the previous state when the state changed. -/
def cleanupStep (prevState newState : Int) (leds : List LED) : List LED × List Ev :=
  if newState ≠ prevState then
    if prevState = LoopStates.Inserting then ledOff leds INSERT
    else if prevState = LoopStates.Replacing then ledOff leds REPLACE
    else if prevState = LoopStates.Substitute then ledOff leds SUBSTITUTE
    else if prevState = LoopStates.Multiplying then ledOff leds MULTIPLY
    else (leds, [])
  else (leds, [])

/-- Result of `updateLoopLedState`. -/
structure UpdRes where
  leds : List LED
  loop : Loop
  evs : List Ev
deriving DecidableEq

/-- The first `switch` of `updateLoopLedState`, case for case from the
source: set the LED's visual state and timer, then turn the loop's LED on or
off (and, for the four action states, also turn the shared action LED on). -/
def mainSwitch (mode : Int) (leds0 : List LED) (idx : Int) (newState : Int) : List LED × List Ev :=
    if newState = LoopStates.Unknown ∨ newState = LoopStates.Off then
      ledOff (setVis leds0 idx LedStates.Dark TIMER_OFF) idx
    else if newState = LoopStates.WaitStart ∨ newState = LoopStates.WaitStop then
      ledOn (setVis leds0 idx LedStates.FastBlink TIMER_FASTBLINK) idx
    else if newState = LoopStates.Recording then
      ledOn (setVis leds0 idx LedStates.Light TIMER_OFF) idx
    else if newState = LoopStates.Overdubbing then
      ledOn (setVis leds0 idx LedStates.Light TIMER_OFF) idx
    else if newState = LoopStates.Inserting then
      let a := ledOn (setVis leds0 idx LedStates.FastBlink TIMER_FASTBLINK) idx
      let b := ledOn a.1 INSERT
      (b.1, a.2 ++ b.2)
    else if newState = LoopStates.Replacing then
      let a := ledOn (setVis leds0 idx LedStates.FastBlink TIMER_FASTBLINK) idx
      let b := ledOn a.1 REPLACE
      (b.1, a.2 ++ b.2)
    else if newState = LoopStates.Substitute then
      let a := ledOn (setVis leds0 idx LedStates.FastBlink TIMER_FASTBLINK) idx
      let b := ledOn a.1 SUBSTITUTE
      (b.1, a.2 ++ b.2)
    else if newState = LoopStates.Multiplying then
      let a := ledOn (setVis leds0 idx LedStates.FastBlink TIMER_FASTBLINK) idx
      let b := ledOn a.1 MULTIPLY
      (b.1, a.2 ++ b.2)
    else if newState = LoopStates.Delay then
      ledOn (setVis leds0 idx LedStates.Light TIMER_OFF) idx
    else if newState = LoopStates.Scratching then
      ledOn (setVis leds0 idx LedStates.Light TIMER_OFF) idx
    else if newState = LoopStates.OneShot then
      ledOn (setVis leds0 idx LedStates.Light TIMER_OFF) idx
    else if newState = LoopStates.Playing then
      if mode = 0 then
        ledOn (setVis leds0 idx LedStates.Light TIMER_OFF) idx
      else
        ledOn (setVis leds0 idx LedStates.Blink TIMER_BLINK) idx
    else if newState = LoopStates.Muted ∨ newState = LoopStates.Paused then
      ledOn (setVis leds0 idx LedStates.Blink TIMER_BLINK) idx
    else
      ledOff (setVis leds0 idx LedStates.Dark TIMER_OFF) idx

/-- `updateLoopLedState(Loop& loop, LoopStates newState)`: the main `switch`,
then the cleanup `switch`, then the unconditional store of the new state. -/
def updateLoopLedState (mode : Int) (leds0 : List LED) (loop : Loop) (newState : Int) : UpdRes :=
  let main := mainSwitch mode leds0 loop.index_ newState
  let cl := cleanupStep loop.state_ newState main.1
  ⟨cl.1, { loop with state_ := newState }, main.2 ++ cl.2⟩

/-!  Spec-side table (§4.2), written from the spec's words, for the refinement
comparison: visual state, timer, and whether the loop's own LED is turned on
(`true`) or off (`false`), as a function of `(newState, mode)` only. -/

/-- Table row of §4.2: (visual, timer, LED turned on?). -/
def specRow (mode s : Int) : LedStates × Int × Bool :=
  if s = LoopStates.Unknown ∨ s = LoopStates.Off then (LedStates.Dark, TIMER_OFF, false)
  else if s = LoopStates.WaitStart ∨ s = LoopStates.WaitStop then
    (LedStates.FastBlink, TIMER_FASTBLINK, true)
  else if s = LoopStates.Recording ∨ s = LoopStates.Overdubbing ∨ s = LoopStates.Delay ∨
      s = LoopStates.Scratching ∨ s = LoopStates.OneShot then
    (LedStates.Light, TIMER_OFF, true)
  else if s = LoopStates.Inserting ∨ s = LoopStates.Replacing ∨ s = LoopStates.Substitute ∨
      s = LoopStates.Multiplying then
    (LedStates.FastBlink, TIMER_FASTBLINK, true)
  else if s = LoopStates.Playing then
    if mode = 0 then (LedStates.Light, TIMER_OFF, true) else (LedStates.Blink, TIMER_BLINK, true)
  else if s = LoopStates.Muted ∨ s = LoopStates.Paused then (LedStates.Blink, TIMER_BLINK, true)
  else (LedStates.Dark, TIMER_OFF, false)

/-- Shared action LED of §4.2 associated with a state, if any. -/
def specActionLed (s : Int) : Option Int :=
  if s = LoopStates.Inserting then some INSERT
  else if s = LoopStates.Replacing then some REPLACE
  else if s = LoopStates.Substitute then some SUBSTITUTE
  else if s = LoopStates.Multiplying then some MULTIPLY
  else none

/-- Visual/timer projection of the LED stored at a pool position. -/
def visTimer (leds : List LED) (i : Int) : Option (LedStates × Int) :=
  (leds.get? i.toNat).map (fun l => (l.state_, l.timer_))

/-- Result of `updateLoops`. -/
structure ULRes where
  leds : List LED
  loops : List Loop
  evs : List Ev
deriving DecidableEq

/-- `updateLoops()`: re-apply each loop's current state to its LED. -/
def updateLoops (mode : Int) : List Loop → List LED → ULRes
  | [], leds => ⟨leds, [], []⟩
  | l :: ls, leds =>
    let r := updateLoopLedState mode leds l l.state_
    let rest := updateLoops mode ls r.leds
    ⟨rest.leds, r.loop :: rest.loops, r.evs ++ rest.evs⟩

/-- The whole-application mutable state (the fields of `loop4r_readApplication`
that the modelled handlers read or write). -/
structure AppState where
  channel : Int
  baseNote : Int
  mode : Int
  heartbeat : Int
  currentReceivePort : Int
  currentSendPort : Int
  oscReceivePort : Int
  oscSendPort : Int
  hostUrl : String
  version : String
  loopCount : Int
  engineId : Int
  selectedLoop : Int
  loops : List Loop
  leds : List LED
deriving DecidableEq

/-- Constructor defaults relevant to the model. -/
def baseState : AppState where
  channel := 1
  baseNote := 64
  mode := 0
  heartbeat := 5
  currentReceivePort := -1
  currentSendPort := -1
  oscReceivePort := 9000
  oscSendPort := 9951
  hostUrl := ""
  version := ""
  loopCount := 0
  engineId := 0
  selectedLoop := -1
  loops := []
  leds := initLeds

/-- The OSC part of `timerCallback()` (the MIDI-device part touches no state
the claims are about).  `connectOk` is the outcome of `tryToConnectOsc()`:
whether both UDP sockets could be opened; on success the code also sends the
`/ping` handshake (`pinged_` is never set, so the send is unconditional). -/
def timerCallback (connectOk : Bool) (st : AppState) : AppState × List Ev :=
  if st.currentReceivePort < 0 ∨ st.currentSendPort < 0 then
    if connectOk then
      ({ st with currentReceivePort := st.oscReceivePort,
                 currentSendPort := st.oscSendPort, heartbeat := 5 }, [Ev.oscPing])
    else (st, [])
  else
    if st.heartbeat = 0 then (st, [Ev.oscPing])
    else if st.heartbeat < -5 then
      let st1 := { st with currentReceivePort := -1, currentSendPort := -1 }
      if connectOk then
        ({ st1 with currentReceivePort := st.oscReceivePort,
                    currentSendPort := st.oscSendPort, heartbeat := 5 }, [Ev.oscPing])
      else (st1, [])
    else ({ st with heartbeat := st.heartbeat - 1 }, [])

/-- Iterated ticks with no inbound OSC traffic and no reconnection success. -/
def tickN : Nat → AppState → AppState
  | 0, st => st
  | n + 1, st => tickN n (timerCallback false st).1

/-- `pedalIndex(int controllerValue)`. -/
def pedalIndex (controllerValue : Int) : Int :=
  if 1 ≤ controllerValue ∧ controllerValue ≤ 9 then controllerValue - 1
  else if controllerValue = 0 then 9
  else if controllerValue = 10 then UP
  else if controllerValue = 11 then DOWN
  else controllerValue

/-- Result of a MIDI event: new state plus emitted events. -/
structure HRes where
  st : AppState
  evs : List Ev
deriving DecidableEq

/-- The controller branch of `handleIncomingMidiMessage` (CC 104 pedal-down,
CC 105 pedal-up, all other controllers forwarded to the virtual output).
`filterCommands_` is always empty — no `CommandIndex` reaches the `default`
branch of `executeCommand` — so the filter block at the top never fires. -/
def handleIncomingMidiMessage (st : AppState) (controllerNumber controllerValue : Int) : HRes :=
  let pedalIdx := pedalIndex controllerValue
  if controllerNumber = 104 then
    if 0 ≤ pedalIdx ∧ pedalIdx ≤ 3 then
      ⟨st, [Ev.noteOn st.channel (st.baseNote + st.mode + pedalIdx) 127]⟩
    else if pedalIdx = RECORD then
      let m := if st.mode > 0 then 0 else 20
      let l := if m = 0 then ledOff st.leds pedalIdx else ledOn st.leds pedalIdx
      let u := updateLoops m st.loops l.1
      ⟨{ st with mode := m, leds := u.leds, loops := u.loops }, l.2 ++ u.evs⟩
    else if pedalIdx = UNDO then
      let l := ledOn st.leds pedalIdx
      ⟨{ st with leds := l.1 }, l.2 ++ [Ev.noteOn st.channel (st.baseNote + pedalIdx) 127]⟩
    else
      ⟨st, [Ev.noteOn st.channel (st.baseNote + pedalIdx) 127]⟩
  else if controllerNumber = 105 then
    if 0 ≤ pedalIdx ∧ pedalIdx ≤ 3 then
      ⟨st, [Ev.noteOff st.channel (st.baseNote + st.mode + pedalIdx) 0]⟩
    else if pedalIdx = RECORD then ⟨st, []⟩
    else if pedalIdx = UNDO then
      let l := ledOff st.leds pedalIdx
      let u := updateLoops st.mode st.loops l.1
      ⟨{ st with leds := u.leds, loops := u.loops },
        l.2 ++ [Ev.noteOff st.channel (st.baseNote + pedalIdx) 0] ++ u.evs⟩
    else
      ⟨st, [Ev.noteOff st.channel (st.baseNote + pedalIdx) 0]⟩
  else
    ⟨st, [Ev.forwardRaw]⟩

/-! ## OSC message handlers -/

/-- A typed OSC argument as the handlers discriminate them.  A `float32`
carries the `Int` the code immediately converts it to. -/
inductive OSCArg where
  | int32 (n : Int)
  | float32 (v : Int)
  | str (s : String)
deriving DecidableEq

/-- Positional best-effort read of a string argument. -/
def argString? : Option OSCArg → Option String
  | some (OSCArg.str s) => some s
  | _ => none

/-- Positional best-effort read of an int32 argument. -/
def argInt? : Option OSCArg → Option Int
  | some (OSCArg.int32 n) => some n
  | _ => none

/-- `for (i = a; i < b; i++)` index list. -/
def intRange (a b : Int) : List Int :=
  (List.range (b - a).toNat).map (fun (k : Nat) => a + (k : Int))

/-- The four-argument shape of `/pingack` and `/heartbeat`. -/
def hbArgs (host ver : String) (nl uid : Int) : List OSCArg :=
  [OSCArg.str host, OSCArg.str ver, OSCArg.int32 nl, OSCArg.int32 uid]

/-- `selectLoop()`: the two CC digits of the selected-loop display. -/
def selectLoopEvs (selectedLoop : Int) : List Ev :=
  (if Int.tdiv selectedLoop 10 > 0 then [Ev.ccOut 113 (Int.tdiv selectedLoop 10)]
   else [Ev.ccOut 113 0]) ++ [Ev.ccOut 114 (Int.tmod selectedLoop 10)]

/-- The loop-building `for` of `handlePingAckMessage`: add the loop (binding
`leds_.getReference(i)` — `none` on an out-of-bounds pool access), register it
for auto updates, query its state. -/
def buildLoopsAux (leds : List LED) : List Int → Option (List Loop × List Ev)
  | [] => some ([], [])
  | i :: is =>
    if 0 ≤ i ∧ i.toNat < leds.length then
      match buildLoopsAux leds is with
      | some (ls, evs) =>
        some (⟨i, LoopStates.Off⟩ :: ls, Ev.oscRegisterAuto i :: Ev.oscGet i :: evs)
      | none => none
    else none

/-- `handlePingAckMessage`: best-effort positional parse, then (re)build the
loop collection whenever the stored `loopCount_` is positive, then reset the
heartbeat countdown. -/
def handlePingAckMessage (st : AppState) (args : List OSCArg) : Option (AppState × List Ev) :=
  if args = [] then some (st, [])
  else
    let st1 := { st with
      hostUrl := (argString? (args.get? 0)).getD st.hostUrl
      version := (argString? (args.get? 1)).getD st.version
      loopCount := (argInt? (args.get? 2)).getD st.loopCount
      engineId := (argInt? (args.get? 3)).getD st.engineId }
    if (0 : Int) < st1.loopCount then
      match buildLoopsAux st1.leds (intRange 0 st1.loopCount) with
      | some (ls, evs) =>
        some ({ st1 with loops := ls, heartbeat := 5 }, evs ++ [Ev.oscRegisterGlobal])
      | none => none
    else some ({ st1 with heartbeat := 5 }, [])

/-- The rebuild `for` of `handleHeartbeatMessage` (engine id changed): add the
loop, register it, query it, then `updateLoops()` over the partial collection. -/
def rebuildAux (mode : Int) : List Int → List LED → List Loop → Option (List LED × List Loop × List Ev)
  | [], leds, loops => some (leds, loops, [])
  | i :: is, leds, loops =>
    if 0 ≤ i ∧ i.toNat < leds.length then
      let u := updateLoops mode (loops ++ [⟨i, LoopStates.Off⟩]) leds
      match rebuildAux mode is u.leds u.loops with
      | some (l2, lp2, e2) =>
        some (l2, lp2, Ev.oscRegisterAuto i :: Ev.oscGet i :: (u.evs ++ e2))
      | none => none
    else none

/-- The extension `for` of `handleHeartbeatMessage` (same engine id, loop
count changed): register the new index, add the loop, then `updateLoops()`.
No state query is issued here. -/
def extendAux (mode : Int) : List Int → List LED → List Loop → Option (List LED × List Loop × List Ev)
  | [], leds, loops => some (leds, loops, [])
  | i :: is, leds, loops =>
    if 0 ≤ i ∧ i.toNat < leds.length then
      let u := updateLoops mode (loops ++ [⟨i, LoopStates.Off⟩]) leds
      match extendAux mode is u.leds u.loops with
      | some (l2, lp2, e2) =>
        some (l2, lp2, Ev.oscRegisterAuto i :: (u.evs ++ e2))
      | none => none
    else none

/-- `handleHeartbeatMessage`.  Note that `engineId_` itself is never updated
here, and `numloops`/`uid` default to `0`/`engineId_` when the argument is
missing or mistyped. -/
def handleHeartbeatMessage (st : AppState) (args : List OSCArg) : Option (AppState × List Ev) :=
  if args = [] then some (st, [])
  else
    let st1 := { st with
      hostUrl := (argString? (args.get? 0)).getD st.hostUrl
      version := (argString? (args.get? 1)).getD st.version }
    let numloops := (argInt? (args.get? 2)).getD 0
    let uid := (argInt? (args.get? 3)).getD st.engineId
    if uid ≠ st.engineId then
      if (0 : Int) < numloops then
        match rebuildAux st1.mode (intRange 0 numloops) st1.leds [] with
        | some (l2, lp2, e2) =>
          some ({ st1 with loopCount := numloops, loops := lp2, leds := l2, heartbeat := 5 },
                e2 ++ [Ev.oscRegisterGlobal])
        | none => none
      else some ({ st1 with heartbeat := 5 }, [])
    else
      if st.loopCount ≠ numloops then
        match extendAux st1.mode (intRange st.loopCount numloops) st1.leds st1.loops with
        | some (l2, lp2, e2) =>
          some ({ st1 with loopCount := numloops, loops := lp2, leds := l2, heartbeat := 5 }, e2)
        | none => none
      else some ({ st1 with heartbeat := 5 }, [])

/-- `handleCtrlMessage`.  The C++ walks a raw `OSCArgument*`: every `++arg`
followed by a type test may dereference past the end of the argument list, and
`loops_.getReference(loopIndex)` is unchecked — both are modelled as `none`. -/
def handleCtrlMessage (st : AppState) (args : List OSCArg) : Option (AppState × List Ev) :=
  if args = [] then some (st, [])
  else
    match args.get? 0 with
    | some (OSCArg.int32 loopIndex) =>
      if loopIndex = -2 then
        match args.get? 1 with
        | none => none
        | some (OSCArg.str k) =>
          if k = "selected_loop_num" then
            match args.get? 2 with
            | none => none
            | some (OSCArg.float32 v) => some ({ st with selectedLoop := v }, selectLoopEvs v)
            | some _ => some (st, [])
          else some (st, [])
        | some _ => some (st, [])
      else if loopIndex < 0 then some (st, [])
      else
        match args.get? 1 with
        | none => none
        | some (OSCArg.str k) =>
          if k = "state" then
            match args.get? 2 with
            | none => none
            | some (OSCArg.float32 v) =>
              match st.loops.get? loopIndex.toNat with
              | none => none
              | some loop =>
                let r := updateLoopLedState st.mode st.leds loop v
                some ({ st with leds := r.leds, loops := st.loops.set loopIndex.toNat r.loop,
                                heartbeat := 5 }, r.evs)
            | some _ => some ({ st with heartbeat := 5 }, [])
          else some ({ st with heartbeat := 5 }, [])
        | some _ => some ({ st with heartbeat := 5 }, [])
    | some _ => some (st, [])
    | none => some (st, [])

/-! ## Basic lemmas about the LED pool operations -/

theorem ledModify_length (f : LED → LED) (n : Nat) (l : List LED) :
    (ledModify f n l).length = l.length := by
  induction l generalizing n with
  | nil => cases n <;> rfl
  | cons x xs ih => cases n with
    | zero => rfl
    | succ k => simpa [ledModify] using ih k

theorem ledModify_get? (f : LED → LED) (n m : Nat) (l : List LED) :
    (ledModify f n l).get? m = if m = n then (l.get? m).map f else l.get? m := by
  induction l generalizing n m with
  | nil => cases n <;> cases m <;> simp [ledModify]
  | cons x xs ih =>
    cases n with
    | zero => cases m <;> simp [ledModify]
    | succ k => cases m with
      | zero => simp [ledModify]
      | succ j => simpa [ledModify] using ih k j

theorem visTimer_ledModify (f : LED → LED)
    (hf : ∀ x, (f x).state_ = x.state_ ∧ (f x).timer_ = x.timer_)
    (n : Nat) (l : List LED) (i : Int) :
    visTimer (ledModify f n l) i = visTimer l i := by
  simp only [visTimer, ledModify_get?]
  split
  · cases h : l.get? i.toNat <;> simp [h, (hf _).1, (hf _).2]
  · rfl

theorem visTimer_ledOn (leds : List LED) (j i : Int) :
    visTimer (ledOn leds j).1 i = visTimer leds i :=
  visTimer_ledModify (fun l => { l with on_ := true }) (fun _ => ⟨rfl, rfl⟩) _ _ _

theorem visTimer_ledOff (leds : List LED) (j i : Int) :
    visTimer (ledOff leds j).1 i = visTimer leds i :=
  visTimer_ledModify (fun l => { l with on_ := false }) (fun _ => ⟨rfl, rfl⟩) _ _ _

theorem visTimer_cleanupStep (p n : Int) (leds : List LED) (i : Int) :
    visTimer (cleanupStep p n leds).1 i = visTimer leds i := by
  unfold cleanupStep
  split_ifs <;> simp [visTimer_ledOff]

theorem visTimer_setVis_self (leds : List LED) (idx : Int) (v : LedStates) (t : Int)
    (h : idx.toNat < leds.length) : visTimer (setVis leds idx v t) idx = some (v, t) := by
  simp only [setVis, visTimer, ledModify_get?, if_pos rfl]
  cases hx : leds.get? idx.toNat with
  | none => exact absurd (List.get?_eq_none.mp hx) (Nat.not_le.mpr h)
  | some x => simp

theorem ledOn_snd (leds : List LED) (j : Int) : (ledOn leds j).2 = [Ev.ledOn j] := rfl

theorem ledOff_snd (leds : List LED) (j : Int) : (ledOff leds j).2 = [Ev.ledOff j] := rfl

/-- Exhaustive case analysis on the integer behind a `LoopStates` value. -/
theorem loopStateCases (s : Int) :
    s = -1 ∨ s = 0 ∨ s = 1 ∨ s = 2 ∨ s = 3 ∨ s = 4 ∨ s = 5 ∨ s = 6 ∨ s = 7 ∨ s = 8 ∨
    s = 9 ∨ s = 10 ∨ s = 11 ∨ s = 12 ∨ s = 13 ∨ s = 14 ∨
    (s ≠ -1 ∧ s ≠ 0 ∧ s ≠ 1 ∧ s ≠ 2 ∧ s ≠ 3 ∧ s ≠ 4 ∧ s ≠ 5 ∧ s ≠ 6 ∧ s ≠ 7 ∧ s ≠ 8 ∧
     s ≠ 9 ∧ s ≠ 10 ∧ s ≠ 11 ∧ s ≠ 12 ∧ s ≠ 13 ∧ s ≠ 14) := by
  omega

/-- The main switch stores exactly the table row's visual state and timer at
the loop's pool slot. -/
theorem mainSwitch_visTimer (mode : Int) (leds : List LED) (idx s : Int)
    (h : idx.toNat < leds.length) :
    visTimer (mainSwitch mode leds idx s).1 idx =
      some ((specRow mode s).1, (specRow mode s).2.1) := by
  rcases loopStateCases s with hs|hs|hs|hs|hs|hs|hs|hs|hs|hs|hs|hs|hs|hs|hs|hs|hs <;>
    first
      | (obtain ⟨e1, e2, e3, e4, e5, e6, e7, e8, e9, e10, e11, e12, e13, e14, e15, e16⟩ := hs
         simp [mainSwitch, specRow, e1, e2, e3, e4, e5, e6, e7, e8, e9, e10, e11, e12, e13,
           e14, e15, e16, visTimer_ledOn, visTimer_ledOff, visTimer_setVis_self, h])
      | (subst hs
         by_cases hm : mode = 0 <;>
           simp [mainSwitch, specRow, hm, visTimer_ledOn, visTimer_ledOff,
             visTimer_setVis_self, h])

/-- The main switch emits the loop-LED command of the table row, followed by
the shared action LED command when the row has one. -/
theorem mainSwitch_evs (mode : Int) (leds : List LED) (idx s : Int) :
    (mainSwitch mode leds idx s).2 =
      (if (specRow mode s).2.2 then [Ev.ledOn idx] else [Ev.ledOff idx]) ++
      (match specActionLed s with
       | some a => [Ev.ledOn a]
       | none => []) := by
  rcases loopStateCases s with hs|hs|hs|hs|hs|hs|hs|hs|hs|hs|hs|hs|hs|hs|hs|hs|hs <;>
    first
      | (obtain ⟨e1, e2, e3, e4, e5, e6, e7, e8, e9, e10, e11, e12, e13, e14, e15, e16⟩ := hs
         simp [mainSwitch, specRow, specActionLed, e1, e2, e3, e4, e5, e6, e7, e8, e9, e10,
           e11, e12, e13, e14, e15, e16, ledOn_snd, ledOff_snd])
      | (subst hs
         by_cases hm : mode = 0 <;>
           simp [mainSwitch, specRow, specActionLed, hm, ledOn_snd, ledOff_snd])

/-- The main switch does not change the pool size. -/
theorem mainSwitch_length (mode : Int) (leds : List LED) (idx s : Int) :
    (mainSwitch mode leds idx s).1.length = leds.length := by
  rcases loopStateCases s with hs|hs|hs|hs|hs|hs|hs|hs|hs|hs|hs|hs|hs|hs|hs|hs|hs <;>
    first
      | (obtain ⟨e1, e2, e3, e4, e5, e6, e7, e8, e9, e10, e11, e12, e13, e14, e15, e16⟩ := hs
         simp [mainSwitch, e1, e2, e3, e4, e5, e6, e7, e8, e9, e10, e11, e12, e13, e14, e15,
           e16, ledOn, ledOff, setVis, ledModify_length])
      | (subst hs
         by_cases hm : mode = 0 <;>
           simp [mainSwitch, hm, ledOn, ledOff, setVis, ledModify_length])

/-- The cleanup step emits the previous state's shared action LED off command
when the state changed, and nothing otherwise. -/
theorem cleanupStep_snd (p n : Int) (leds : List LED) :
    (cleanupStep p n leds).2 =
      if n ≠ p then
        (match specActionLed p with
         | some a => [Ev.ledOff a]
         | none => [])
      else [] := by
  unfold cleanupStep specActionLed
  split_ifs <;> simp_all [ledOff_snd]

/-- The cleanup step does not change the pool size. -/
theorem cleanupStep_length (p n : Int) (leds : List LED) :
    (cleanupStep p n leds).1.length = leds.length := by
  unfold cleanupStep
  split_ifs <;> simp [ledOff, ledModify_length]

/-! ## C1 -/

/-- `updateLoopLedState` unfolding: final pool. -/
theorem updateLoopLedState_leds (mode : Int) (leds : List LED) (loop : Loop) (s : Int) :
    (updateLoopLedState mode leds loop s).leds =
      (cleanupStep loop.state_ s (mainSwitch mode leds loop.index_ s).1).1 := rfl

/-- `updateLoopLedState` unfolding: emitted events. -/
theorem updateLoopLedState_evs (mode : Int) (leds : List LED) (loop : Loop) (s : Int) :
    (updateLoopLedState mode leds loop s).evs =
      (mainSwitch mode leds loop.index_ s).2 ++
      (cleanupStep loop.state_ s (mainSwitch mode leds loop.index_ s).1).2 := rfl

/-- `updateLoopLedState` unfolding: the stored state is updated to the new
state unconditionally, the index untouched. -/
theorem updateLoopLedState_loop (mode : Int) (leds : List LED) (loop : Loop) (s : Int) :
    (updateLoopLedState mode leds loop s).loop = ⟨loop.index_, s⟩ := rfl

/-- Conclusion of claim C1 about one `updateLoopLedState` call: the visual
state and timer stored at the loop's LED equal the §4.2 table row, the first
emitted LED command turns the loop's LED on or off per the table row, the
shared action LED of the table row (if any) is turned on right after, and the
loop's stored state becomes the new state. -/
def C1Prop (mode : Int) (leds : List LED) (loop : Loop) (s : Int) : Prop :=
  visTimer (updateLoopLedState mode leds loop s).leds loop.index_ =
    some ((specRow mode s).1, (specRow mode s).2.1) ∧
  (updateLoopLedState mode leds loop s).evs.head? =
    some (if (specRow mode s).2.2 then Ev.ledOn loop.index_ else Ev.ledOff loop.index_) ∧
  (∀ a, specActionLed s = some a →
    (updateLoopLedState mode leds loop s).evs.get? 1 = some (Ev.ledOn a)) ∧
  (updateLoopLedState mode leds loop s).loop = ⟨loop.index_, s⟩

/-- C1: `applyLoopState` (`updateLoopLedState`) sets the loop's LED visual
state, LED timer and on/off exactly per the §4.2 table, as a pure function of
`(previousState, newState, mode)`: Unknown/Off and any unlisted value give
Dark/off with the LED turned off; WaitStart/WaitStop give FastBlink/fast with
the LED on; Recording/Overdubbing/Delay/Scratching/OneShot give Light/off with
the LED on; Inserting/Replacing/Substitute/Multiplying give FastBlink/fast
with the loop LED on and the corresponding shared action LED on; Playing gives
Light/off when mode==0 and Blink/slow when mode≠0, LED on; Muted/Paused give
Blink/slow with the LED on. -/
theorem C1_applyLoopState_matches_table (mode : Int) (leds : List LED) (loop : Loop) (s : Int)
    (h : loop.index_.toNat < leds.length) : C1Prop mode leds loop s := by
  unfold C1Prop
  refine ⟨?_, ?_, ?_, updateLoopLedState_loop mode leds loop s⟩
  · rw [updateLoopLedState_leds, visTimer_cleanupStep, mainSwitch_visTimer _ _ _ _ h]
  · rw [updateLoopLedState_evs, mainSwitch_evs]
    cases (specRow mode s).2.2 <;> simp
  · intro a ha
    rw [updateLoopLedState_evs, mainSwitch_evs, ha]
    cases (specRow mode s).2.2 <;> simp

/-- Witness for C1 at a concrete input (loop 0, Off → Recording, mode 0). -/
theorem C1_applyLoopState_matches_table_witness :
    (Loop.index_ ⟨0, LoopStates.Off⟩).toNat < initLeds.length ∧
    C1Prop 0 initLeds ⟨0, LoopStates.Off⟩ LoopStates.Recording :=
  ⟨by decide, C1_applyLoopState_matches_table 0 initLeds ⟨0, LoopStates.Off⟩ LoopStates.Recording
    (by decide)⟩

/-! ## C2 -/

/-- C2 counterexample: transitioning loop 0 from Inserting to Off emits the
loop's own LED command first (`ledOff 0`) and the shared Insert LED cleanup
(`ledOff 6`) after it — not before, as the claim states: the index of the
cleanup command in the trace is not smaller than the index of the loop-LED
command. -/
theorem C2_cleanup_order_counterexample :
    (updateLoopLedState 0 initLeds ⟨0, LoopStates.Inserting⟩ LoopStates.Off).evs
      = [Ev.ledOff 0, Ev.ledOff INSERT] ∧
    ¬ ((updateLoopLedState 0 initLeds ⟨0, LoopStates.Inserting⟩ LoopStates.Off).evs.findIdx
          (fun e => e == Ev.ledOff INSERT) <
        (updateLoopLedState 0 initLeds ⟨0, LoopStates.Inserting⟩ LoopStates.Off).evs.findIdx
          (fun e => e == Ev.ledOff 0)) := by decide

/-- C2 amended: when the previous state is Inserting/Replacing/Substitute/
Multiplying (equivalently, `specActionLed` yields its shared action LED `a`)
and the new state differs, the shared action LED is turned off *after* the
loop's own LED is updated — the cleanup `ledOff a` is the last command of the
trace, while the first command targets the loop's own LED per the table — and
the loop's stored state is updated to the new state unconditionally. -/
theorem C2_cleanup_after_loop_led (mode : Int) (leds : List LED) (loop : Loop) (s a : Int)
    (hprev : specActionLed loop.state_ = some a) (hne : s ≠ loop.state_) :
    (updateLoopLedState mode leds loop s).evs.getLast? = some (Ev.ledOff a) ∧
    (updateLoopLedState mode leds loop s).evs.head? =
      some (if (specRow mode s).2.2 then Ev.ledOn loop.index_ else Ev.ledOff loop.index_) ∧
    (updateLoopLedState mode leds loop s).loop.state_ = s := by
  have hcl : (cleanupStep loop.state_ s (mainSwitch mode leds loop.index_ s).1).2
      = [Ev.ledOff a] := by
    rw [cleanupStep_snd, if_pos hne, hprev]
  refine ⟨?_, ?_, rfl⟩
  · rw [updateLoopLedState_evs, hcl, List.getLast?_append_cons]
    rfl
  · rw [updateLoopLedState_evs, mainSwitch_evs]
    cases (specRow mode s).2.2 <;> simp

/-- Witness for C2's amended theorem: loop 1 in Replacing, new state Playing. -/
theorem C2_cleanup_after_loop_led_witness :
    specActionLed (Loop.state_ ⟨1, LoopStates.Replacing⟩) = some REPLACE ∧
    LoopStates.Playing ≠ Loop.state_ ⟨1, LoopStates.Replacing⟩ ∧
    ((updateLoopLedState 0 initLeds ⟨1, LoopStates.Replacing⟩ LoopStates.Playing).evs.getLast?
        = some (Ev.ledOff REPLACE) ∧
      (updateLoopLedState 0 initLeds ⟨1, LoopStates.Replacing⟩ LoopStates.Playing).evs.head? =
        some (if (specRow 0 LoopStates.Playing).2.2 then Ev.ledOn (Loop.index_ ⟨1, LoopStates.Replacing⟩)
              else Ev.ledOff (Loop.index_ ⟨1, LoopStates.Replacing⟩)) ∧
      (updateLoopLedState 0 initLeds ⟨1, LoopStates.Replacing⟩ LoopStates.Playing).loop.state_ =
        LoopStates.Playing) :=
  ⟨by decide, by decide,
    C2_cleanup_after_loop_led 0 initLeds ⟨1, LoopStates.Replacing⟩ LoopStates.Playing REPLACE
      (by decide) (by decide)⟩

/-! ## C3 -/

/-- A session-established state as left by a successful handshake: both port
markers set, heartbeat countdown at 5. -/
def connectedState : AppState :=
  { baseState with currentReceivePort := 9000, currentSendPort := 9951 }

set_option maxRecDepth 4000 in
/-- C3 evaluation at the failing input: starting from a fresh handshake
(countdown 5) with the session established and no inbound OSC traffic, the
first five ticks decrement the countdown to 0 and the 6th tick sends a
proactive `/ping` — that much of the claim holds — but the tick at countdown 0
does not decrement (the `heartbeat_ == 0` branch only sends), so the countdown
is still 0 after 11 ticks, and after 100 ticks, and both port markers remain
set: the session never resets to disconnected, because the `heartbeat_ < -5`
reconnect branch is unreachable.  This contradicts the claim and the code's
own comment ("give a second before we try reconnecting"). -/
theorem C3_heartbeat_never_resets :
    (tickN 5 connectedState).heartbeat = 0 ∧
    (timerCallback false (tickN 5 connectedState)).2 = [Ev.oscPing] ∧
    (tickN 11 connectedState).heartbeat = 0 ∧
    (tickN 11 connectedState).currentReceivePort = 9000 ∧
    (tickN 11 connectedState).currentSendPort = 9951 ∧
    (tickN 100 connectedState).heartbeat = 0 ∧
    (tickN 100 connectedState).currentReceivePort = 9000 ∧
    (tickN 100 connectedState).currentSendPort = 9951 := by decide

/-! ## C4 -/

/-- C4 counterexample: pedal 0 down at mode 0 emits note-on at pitch
64 = baseNote + 0 + 0; a Record press toggles the mode to 20; pedal 0 up then
emits note-off at pitch 84 = baseNote + 20 + 0 — the up event uses the mode
current at up time, not the mode captured at down time, so the note-off pitch
differs from the note-on pitch. -/
theorem C4_mode_toggle_counterexample :
    (handleIncomingMidiMessage connectedState 104 1).evs = [Ev.noteOn 1 64 127] ∧
    (handleIncomingMidiMessage (handleIncomingMidiMessage connectedState 104 1).st 104 5).evs
      = [Ev.ledOn RECORD] ∧
    (handleIncomingMidiMessage
        (handleIncomingMidiMessage (handleIncomingMidiMessage connectedState 104 1).st 104 5).st
        105 1).evs = [Ev.noteOff 1 84 0] ∧
    Ev.noteOff 1 84 0 ≠ Ev.noteOff 1 64 0 := by decide

/-- C4 amended: for every pedal index 0-3 (controller value `v`, pedal index
`v - 1`), a down event emits exactly one note-on and an up event exactly one
note-off, each at `baseNote + mode + index` where `mode` is the value current
at the time of that event (the down state for the note-on, the possibly
different up state for the note-off); loop-pedal events leave the state
unchanged, and a Record press in between toggles the mode between 0 and 20
while leaving baseNote and channel unchanged — so it shifts the up event's
target pitch. -/
theorem C4_up_uses_current_mode (st stUp : AppState) (v : Int) (h : 1 ≤ v ∧ v ≤ 4) :
    (handleIncomingMidiMessage st 104 v).evs
      = [Ev.noteOn st.channel (st.baseNote + st.mode + (v - 1)) 127] ∧
    (handleIncomingMidiMessage st 104 v).st = st ∧
    (handleIncomingMidiMessage stUp 105 v).evs
      = [Ev.noteOff stUp.channel (stUp.baseNote + stUp.mode + (v - 1)) 0] ∧
    (handleIncomingMidiMessage stUp 105 v).st = stUp ∧
    (handleIncomingMidiMessage st 104 5).st.mode = (if st.mode > 0 then 0 else 20) ∧
    (handleIncomingMidiMessage st 104 5).st.baseNote = st.baseNote ∧
    (handleIncomingMidiMessage st 104 5).st.channel = st.channel := by
  obtain ⟨h1, h2⟩ := h
  have hp : pedalIndex v = v - 1 := by
    unfold pedalIndex
    rw [if_pos ⟨h1, by omega⟩]
  have hrange : 0 ≤ v - 1 ∧ v - 1 ≤ 3 := by omega
  have hp5 : pedalIndex 5 = 4 := by decide
  have ha : (0 : Int) ≤ v - 1 := by omega
  have hb : v - 1 ≤ 3 := by omega
  refine ⟨?_, ?_, ?_, ?_, ?_, ?_, ?_⟩ <;>
    simp [handleIncomingMidiMessage, hp, hp5, h1, h2, ha, hb]

/-! ## Lemmas about `updateLoops` and the loop-collection builders -/

/-- Re-applying a loop's own state leaves the loop record unchanged. -/
theorem updateLoopLedState_loop_self (mode : Int) (leds : List LED) (l : Loop) :
    (updateLoopLedState mode leds l l.state_).loop = l :=
  updateLoopLedState_loop mode leds l l.state_

/-- `updateLoops` never changes the loop records. -/
theorem updateLoops_loops (mode : Int) (loops : List Loop) (leds : List LED) :
    (updateLoops mode loops leds).loops = loops := by
  induction loops generalizing leds with
  | nil => rfl
  | cons l ls ih => simp [updateLoops, updateLoopLedState_loop_self, ih]

/-- `updateLoopLedState` preserves the pool size. -/
theorem updateLoopLedState_leds_length (mode : Int) (leds : List LED) (loop : Loop) (s : Int) :
    (updateLoopLedState mode leds loop s).leds.length = leds.length := by
  rw [updateLoopLedState_leds, cleanupStep_length, mainSwitch_length]

/-- `updateLoops` preserves the pool size. -/
theorem updateLoops_leds_length (mode : Int) (loops : List Loop) (leds : List LED) :
    (updateLoops mode loops leds).leds.length = leds.length := by
  induction loops generalizing leds with
  | nil => rfl
  | cons l ls ih => simp [updateLoops, ih, updateLoopLedState_leds_length]

/-- Every event of the main switch is an LED command. -/
theorem mainSwitch_evs_led (mode : Int) (leds : List LED) (idx s : Int) :
    ∀ e ∈ (mainSwitch mode leds idx s).2, (∃ i, e = Ev.ledOn i) ∨ ∃ i, e = Ev.ledOff i := by
  intro e he
  rw [mainSwitch_evs] at he
  rcases List.mem_append.mp he with h | h
  · split at h <;> simp at h <;> [exact Or.inl ⟨idx, h⟩; exact Or.inr ⟨idx, h⟩]
  · rcases hs : specActionLed s with _ | a <;> rw [hs] at h <;> simp at h
    exact Or.inl ⟨a, h⟩

/-- Every event of the cleanup step is an LED-off command. -/
theorem cleanupStep_evs_led (p n : Int) (leds : List LED) :
    ∀ e ∈ (cleanupStep p n leds).2, ∃ i, e = Ev.ledOff i := by
  intro e he
  rw [cleanupStep_snd] at he
  split at he
  · rcases hs : specActionLed p with _ | a <;> rw [hs] at he <;> simp at he
    exact ⟨a, he⟩
  · simp at he

/-- Every event of `updateLoopLedState` is an LED command. -/
theorem updateLoopLedState_evs_led (mode : Int) (leds : List LED) (loop : Loop) (s : Int) :
    ∀ e ∈ (updateLoopLedState mode leds loop s).evs,
      (∃ i, e = Ev.ledOn i) ∨ ∃ i, e = Ev.ledOff i := by
  intro e he
  rw [updateLoopLedState_evs] at he
  rcases List.mem_append.mp he with h | h
  · exact mainSwitch_evs_led mode leds loop.index_ s e h
  · exact Or.inr (cleanupStep_evs_led loop.state_ s _ e h)

/-- Every event of `updateLoops` is an LED command. -/
theorem updateLoops_evs_led (mode : Int) (loops : List Loop) (leds : List LED) :
    ∀ e ∈ (updateLoops mode loops leds).evs, (∃ i, e = Ev.ledOn i) ∨ ∃ i, e = Ev.ledOff i := by
  induction loops generalizing leds with
  | nil => intro e he; simp [updateLoops] at he
  | cons l ls ih =>
    intro e he
    simp only [updateLoops, List.mem_append] at he
    rcases he with h | h
    · exact updateLoopLedState_evs_led _ _ _ _ e h
    · exact ih _ e h

/-- Re-applying state Off emits exactly the loop's LED-off command. -/
theorem updateLoopLedState_off_evs (mode : Int) (leds : List LED) (l : Loop)
    (h : l.state_ = LoopStates.Off) :
    (updateLoopLedState mode leds l l.state_).evs = [Ev.ledOff l.index_] := by
  rw [updateLoopLedState_evs, mainSwitch_evs, cleanupStep_snd, h]
  simp [specRow, specActionLed]

/-- `updateLoops` emits the LED-off command of every member loop in state Off. -/
theorem updateLoops_mem_off (mode : Int) (loops : List Loop) (leds : List LED) (l : Loop)
    (hl : l ∈ loops) (hoff : l.state_ = LoopStates.Off) :
    Ev.ledOff l.index_ ∈ (updateLoops mode loops leds).evs := by
  induction loops generalizing leds with
  | nil => cases hl
  | cons x xs ih =>
    simp only [updateLoops, List.mem_append]
    rcases List.mem_cons.mp hl with h | h
    · subst h
      exact Or.inl (by rw [updateLoopLedState_off_evs mode leds l hoff]; simp)
    · exact Or.inr (ih _ h)

/-- `buildLoopsAux` on in-bounds indices: the fresh loops, one register and
one get request per index. -/
theorem buildLoopsAux_spec (leds : List LED) (is : List Int)
    (h : ∀ i ∈ is, 0 ≤ i ∧ i.toNat < leds.length) :
    ∃ evs, buildLoopsAux leds is = some (is.map (fun i => ⟨i, LoopStates.Off⟩), evs) ∧
      ∀ i ∈ is, Ev.oscRegisterAuto i ∈ evs ∧ Ev.oscGet i ∈ evs := by
  induction is with
  | nil => exact ⟨[], rfl, by simp⟩
  | cons i is ih =>
    obtain ⟨evs, heq, hmem⟩ := ih (fun j hj => h j (List.mem_cons_of_mem i hj))
    refine ⟨Ev.oscRegisterAuto i :: Ev.oscGet i :: evs, ?_, ?_⟩
    · simp only [buildLoopsAux, if_pos (h i (List.mem_cons_self i is)), heq]
      rfl
    · intro j hj
      rcases List.mem_cons.mp hj with hji | hji
      · subst hji; simp
      · have := hmem j hji
        exact ⟨List.mem_cons_of_mem _ (List.mem_cons_of_mem _ this.1),
               List.mem_cons_of_mem _ (List.mem_cons_of_mem _ this.2)⟩

/-- `buildLoopsAux` fails on any out-of-bounds index. -/
theorem buildLoopsAux_none (leds : List LED) (is : List Int)
    (h : ∃ i ∈ is, ¬(0 ≤ i ∧ i.toNat < leds.length)) : buildLoopsAux leds is = none := by
  induction is with
  | nil => obtain ⟨i, hi, _⟩ := h; cases hi
  | cons i is ih =>
    obtain ⟨j, hj, hOOB⟩ := h
    rcases List.mem_cons.mp hj with hji | hji
    · subst hji
      simp only [buildLoopsAux, if_neg hOOB]
    · by_cases hi : 0 ≤ i ∧ i.toNat < leds.length
      · simp only [buildLoopsAux, if_pos hi, ih ⟨j, hji, hOOB⟩]
      · simp only [buildLoopsAux, if_neg hi]

/-- `rebuildAux` on in-bounds indices: appends the fresh loops, preserves the
pool size, and emits register, get and LED-off for every new index. -/
theorem rebuildAux_spec (mode : Int) (is : List Int) (leds : List LED) (loops : List Loop)
    (h : ∀ i ∈ is, 0 ≤ i ∧ i.toNat < leds.length) :
    ∃ l2 e2, rebuildAux mode is leds loops
        = some (l2, loops ++ is.map (fun i => ⟨i, LoopStates.Off⟩), e2) ∧
      l2.length = leds.length ∧
      (∀ i ∈ is, Ev.oscRegisterAuto i ∈ e2 ∧ Ev.oscGet i ∈ e2 ∧ Ev.ledOff i ∈ e2) := by
  induction is generalizing leds loops with
  | nil => exact ⟨leds, [], by simp [rebuildAux], rfl, by simp⟩
  | cons i is ih =>
    have hi := h i (List.mem_cons_self i is)
    set u := updateLoops mode (loops ++ [⟨i, LoopStates.Off⟩]) leds with hu
    have hul : u.loops = loops ++ [⟨i, LoopStates.Off⟩] := updateLoops_loops _ _ _
    have hulen : u.leds.length = leds.length := updateLoops_leds_length _ _ _
    obtain ⟨l2, e2, heq, hlen, hmem⟩ :=
      ih u.leds u.loops (by rw [hulen]; exact fun j hj => h j (List.mem_cons_of_mem i hj))
    refine ⟨l2, Ev.oscRegisterAuto i :: Ev.oscGet i :: (u.evs ++ e2), ?_, by rw [hlen, hulen], ?_⟩
    · simp only [rebuildAux, if_pos hi, ← hu, heq]
      simp [hul]
    · intro j hj
      rcases List.mem_cons.mp hj with hji | hji
      · subst hji
        refine ⟨by simp, by simp, ?_⟩
        have : Ev.ledOff (Loop.index_ ⟨j, LoopStates.Off⟩) ∈ u.evs :=
          updateLoops_mem_off mode _ leds ⟨j, LoopStates.Off⟩ (by simp) rfl
        simp only [List.mem_cons, List.mem_append]
        exact Or.inr (Or.inr (Or.inl this))
      · have := hmem j hji
        simp only [List.mem_cons, List.mem_append]
        exact ⟨Or.inr (Or.inr (Or.inr this.1)), Or.inr (Or.inr (Or.inr this.2.1)),
               Or.inr (Or.inr (Or.inr this.2.2))⟩

/-- `rebuildAux` fails on any out-of-bounds index. -/
theorem rebuildAux_none (mode : Int) (is : List Int) (leds : List LED) (loops : List Loop)
    (h : ∃ i ∈ is, ¬(0 ≤ i ∧ i.toNat < leds.length)) : rebuildAux mode is leds loops = none := by
  induction is generalizing leds loops with
  | nil => obtain ⟨i, hi, _⟩ := h; cases hi
  | cons i is ih =>
    obtain ⟨j, hj, hOOB⟩ := h
    rcases List.mem_cons.mp hj with hji | hji
    · subst hji
      simp only [rebuildAux, if_neg hOOB]
    · by_cases hi : 0 ≤ i ∧ i.toNat < leds.length
      · have hulen : (updateLoops mode (loops ++ [⟨i, LoopStates.Off⟩]) leds).leds.length
            = leds.length := updateLoops_leds_length _ _ _
        simp only [rebuildAux, if_pos hi, ih _ _ ⟨j, hji, by rw [hulen]; exact hOOB⟩]
      · simp only [rebuildAux, if_neg hi]

/-- `extendAux` on in-bounds indices: appends the fresh loops, registers each
new index, and issues no state query at all. -/
theorem extendAux_spec (mode : Int) (is : List Int) (leds : List LED) (loops : List Loop)
    (h : ∀ i ∈ is, 0 ≤ i ∧ i.toNat < leds.length) :
    ∃ l2 e2, extendAux mode is leds loops
        = some (l2, loops ++ is.map (fun i => ⟨i, LoopStates.Off⟩), e2) ∧
      (∀ i ∈ is, Ev.oscRegisterAuto i ∈ e2) ∧
      (∀ j : Int, Ev.oscGet j ∉ e2) := by
  induction is generalizing leds loops with
  | nil => exact ⟨leds, [], by simp [extendAux], by simp, by simp⟩
  | cons i is ih =>
    have hi := h i (List.mem_cons_self i is)
    set u := updateLoops mode (loops ++ [⟨i, LoopStates.Off⟩]) leds with hu
    have hul : u.loops = loops ++ [⟨i, LoopStates.Off⟩] := updateLoops_loops _ _ _
    have hulen : u.leds.length = leds.length := updateLoops_leds_length _ _ _
    obtain ⟨l2, e2, heq, hreg, hnoget⟩ :=
      ih u.leds u.loops (by rw [hulen]; exact fun j hj => h j (List.mem_cons_of_mem i hj))
    refine ⟨l2, Ev.oscRegisterAuto i :: (u.evs ++ e2), ?_, ?_, ?_⟩
    · simp only [extendAux, if_pos hi, ← hu, heq]
      simp [hul]
    · intro j hj
      rcases List.mem_cons.mp hj with hji | hji
      · subst hji; simp
      · simp only [List.mem_cons, List.mem_append]
        exact Or.inr (Or.inr (hreg j hji))
    · intro j hmem
      simp only [List.mem_cons, List.mem_append] at hmem
      rcases hmem with h1 | h1 | h1
      · cases h1
      · rcases updateLoops_evs_led mode _ leds (Ev.oscGet j) h1 with ⟨_, h2⟩ | ⟨_, h2⟩ <;> cases h2
      · exact hnoget j h1

/-- `extendAux` fails on any out-of-bounds index. -/
theorem extendAux_none (mode : Int) (is : List Int) (leds : List LED) (loops : List Loop)
    (h : ∃ i ∈ is, ¬(0 ≤ i ∧ i.toNat < leds.length)) : extendAux mode is leds loops = none := by
  induction is generalizing leds loops with
  | nil => obtain ⟨i, hi, _⟩ := h; cases hi
  | cons i is ih =>
    obtain ⟨j, hj, hOOB⟩ := h
    rcases List.mem_cons.mp hj with hji | hji
    · subst hji
      simp only [extendAux, if_neg hOOB]
    · by_cases hi : 0 ≤ i ∧ i.toNat < leds.length
      · have hulen : (updateLoops mode (loops ++ [⟨i, LoopStates.Off⟩]) leds).leds.length
            = leds.length := updateLoops_leds_length _ _ _
        simp only [extendAux, if_pos hi, ih _ _ ⟨j, hji, by rw [hulen]; exact hOOB⟩]
      · simp only [extendAux, if_neg hi]

/-- Membership in `intRange`. -/
theorem mem_intRange (a b i : Int) : i ∈ intRange a b ↔ a ≤ i ∧ i < b := by
  simp only [intRange, List.mem_map, List.mem_range]
  constructor
  · rintro ⟨k, hk, rfl⟩
    have hk2 : (k : Int) < ((b - a).toNat : Int) := by exact_mod_cast hk
    rcases Int.le_or_lt 0 (b - a) with hba | hba
    · rw [Int.toNat_of_nonneg hba] at hk2
      omega
    · rw [Int.toNat_of_nonpos (le_of_lt hba)] at hk2
      omega
  · rintro ⟨h1, h2⟩
    refine ⟨(i - a).toNat, ?_, ?_⟩
    · have : (i - a).toNat < (b - a).toNat := by omega
      exact this
    · have : ((i - a).toNat : Int) = i - a := Int.toNat_of_nonneg (by omega)
      omega

/-- Evaluating `handleHeartbeatMessage` on a well-formed four-argument
message: parse succeeds positionally and the handler reduces to its two
engine-id branches. -/
theorem handleHeartbeatMessage_parse (st : AppState) (host ver : String) (nl uid : Int) :
    handleHeartbeatMessage st (hbArgs host ver nl uid) =
      (if uid ≠ st.engineId then
        if (0 : Int) < nl then
          match rebuildAux st.mode (intRange 0 nl) st.leds [] with
          | some (l2, lp2, e2) =>
            some ({ st with hostUrl := host, version := ver, loopCount := nl, loops := lp2,
                            leds := l2, heartbeat := 5 }, e2 ++ [Ev.oscRegisterGlobal])
          | none => none
        else some ({ st with hostUrl := host, version := ver, heartbeat := 5 }, [])
      else
        if st.loopCount ≠ nl then
          match extendAux st.mode (intRange st.loopCount nl) st.leds st.loops with
          | some (l2, lp2, e2) =>
            some ({ st with hostUrl := host, version := ver, loopCount := nl, loops := lp2,
                            leds := l2, heartbeat := 5 }, e2)
          | none => none
        else some ({ st with hostUrl := host, version := ver, heartbeat := 5 }, [])) := rfl

/-- Evaluating `handlePingAckMessage` on a well-formed four-argument message. -/
theorem handlePingAckMessage_parse (st : AppState) (host ver : String) (nl uid : Int) :
    handlePingAckMessage st (hbArgs host ver nl uid) =
      (if (0 : Int) < nl then
        match buildLoopsAux st.leds (intRange 0 nl) with
        | some (ls, evs) =>
          some ({ st with hostUrl := host, version := ver, loopCount := nl, engineId := uid,
                          loops := ls, heartbeat := 5 }, evs ++ [Ev.oscRegisterGlobal])
        | none => none
      else some ({ st with hostUrl := host, version := ver, loopCount := nl, engineId := uid,
                           heartbeat := 5 }, [])) := rfl

/-! ## C5 -/

/-- Conclusion of claim C5: a well-formed heartbeat with a different engine id
(and positive loop count) rebuilds the whole Loop collection — the loop list
becomes exactly the fresh indices 0..nl-1 in state Off, every index is
re-registered for auto updates, queried for its state, and LED-refreshed, and
one global registration is sent — while a heartbeat with the known engine id
and unchanged loop count only refreshes identity fields and the countdown,
leaving the loop collection untouched and sending nothing. -/
def C5Prop (st : AppState) (host ver : String) (nl uid : Int) : Prop :=
  (uid ≠ st.engineId →
    ∃ st' evs, handleHeartbeatMessage st (hbArgs host ver nl uid) = some (st', evs) ∧
      st'.loops = (intRange 0 nl).map (fun i => ⟨i, LoopStates.Off⟩) ∧
      st'.loopCount = nl ∧ st'.heartbeat = 5 ∧ st'.engineId = st.engineId ∧
      (∀ i ∈ intRange 0 nl,
        Ev.oscRegisterAuto i ∈ evs ∧ Ev.oscGet i ∈ evs ∧ Ev.ledOff i ∈ evs) ∧
      Ev.oscRegisterGlobal ∈ evs) ∧
  (uid = st.engineId → nl = st.loopCount →
    handleHeartbeatMessage st (hbArgs host ver nl uid)
      = some ({ st with hostUrl := host, version := ver, heartbeat := 5 }, []))

/-- C5: an engine-id change in a heartbeat discards and rebuilds the entire
Loop collection (re-registering every loop for auto updates, querying its
state, and pushing a full LED refresh), even if the loop count is unchanged;
a heartbeat with the previously known engine id does not rebuild.  The rebuild
needs a positive reported loop count (the spec's "as in `handlePingAck`"
guard) that fits the LED pool. -/
theorem C5_engine_change_rebuilds (st : AppState) (host ver : String) (nl uid : Int)
    (hpos : 0 < nl) (hled : nl ≤ (st.leds.length : Int)) :
    C5Prop st host ver nl uid := by
  constructor
  · intro hne
    have hb : ∀ i ∈ intRange 0 nl, 0 ≤ i ∧ i.toNat < st.leds.length := by
      intro i hi
      rw [mem_intRange] at hi
      refine ⟨hi.1, ?_⟩
      omega
    obtain ⟨l2, e2, heq, _, hmem⟩ := rebuildAux_spec st.mode (intRange 0 nl) st.leds [] hb
    rw [handleHeartbeatMessage_parse, if_pos hne, if_pos hpos, heq]
    refine ⟨_, _, rfl, by simp, rfl, rfl, rfl, ?_, by simp⟩
    intro i hi
    obtain ⟨h1, h2, h3⟩ := hmem i hi
    exact ⟨List.mem_append_left _ h1, List.mem_append_left _ h2, List.mem_append_left _ h3⟩
  · intro heqid hcnt
    rw [handleHeartbeatMessage_parse, if_neg (by simp [heqid]), if_neg (by omega)]

/-- A state with an established session, engine id 7 and two loops, as left by
a handshake reporting `loopCount=2, engineId=7` followed by a state update. -/
def hbState : AppState :=
  { baseState with
      engineId := 7
      loopCount := 2
      loops := [⟨0, LoopStates.Playing⟩, ⟨1, LoopStates.Off⟩]
      hostUrl := "x"
      version := "1.0"
      heartbeat := 3 }

/-- Witness for C5 at a concrete input (engine id changes from 7 to 9,
loop count stays 2). -/
theorem C5_engine_change_rebuilds_witness :
    (0 : Int) < 2 ∧ (2 : Int) ≤ (hbState.leds.length : Int) ∧ C5Prop hbState "x" "1.0" 2 9 :=
  ⟨by decide, by decide, C5_engine_change_rebuilds hbState "x" "1.0" 2 9 (by decide) (by decide)⟩

/-! ## C6 -/

/-- C6 counterexample: from a state with two loops under engine id 7, a
heartbeat `("x","1.0",3,7)` adds loop 2 and registers it for auto updates,
leaving loops 0-1 untouched — but, contrary to the claim, no state query
(`/sl/2/get`, modelled `Ev.oscGet 2`) is issued for the new loop: the emitted
events are exactly one registration plus LED refresh commands. -/
theorem C6_no_state_query_counterexample :
    ((handleHeartbeatMessage hbState (hbArgs "x" "1.0" 3 7)).map
        (fun r => (r.1.loops, r.1.loopCount, r.2)))
      = some ([⟨0, LoopStates.Playing⟩, ⟨1, LoopStates.Off⟩, ⟨2, LoopStates.Off⟩], 3,
              [Ev.oscRegisterAuto 2, Ev.ledOn 0, Ev.ledOff 1, Ev.ledOff 2]) ∧
    Ev.oscGet 2 ∉ [Ev.oscRegisterAuto 2, Ev.ledOn 0, Ev.ledOff 1, Ev.ledOff 2] := by decide

/-- Conclusion of the amended C6: the heartbeat extension appends exactly the
new indices (each as a fresh loop in state Off), registers each new index for
auto updates, and issues no state query at all; pre-existing loops (indices
and stored states) are unchanged, and the countdown is reset. -/
def C6Prop (st : AppState) (host ver : String) (nl : Int) : Prop :=
  ∃ st' evs, handleHeartbeatMessage st (hbArgs host ver nl st.engineId) = some (st', evs) ∧
    st'.loops = st.loops ++ (intRange st.loopCount nl).map (fun i => ⟨i, LoopStates.Off⟩) ∧
    st'.loopCount = nl ∧ st'.heartbeat = 5 ∧
    (∀ i ∈ intRange st.loopCount nl, Ev.oscRegisterAuto i ∈ evs) ∧
    (∀ j : Int, Ev.oscGet j ∉ evs)

/-- C6 amended: when a heartbeat reports the same engine id and a larger loop
count, exactly the new indices are appended to the Loop collection and each
new loop is registered for auto state updates, but no current-state query is
sent for them; the pre-existing loops are left unchanged. -/
theorem C6_extension_no_query (st : AppState) (host ver : String) (nl : Int)
    (h0 : 0 ≤ st.loopCount) (hgrow : st.loopCount < nl) (hled : nl ≤ (st.leds.length : Int)) :
    C6Prop st host ver nl := by
  have hb : ∀ i ∈ intRange st.loopCount nl, 0 ≤ i ∧ i.toNat < st.leds.length := by
    intro i hi
    rw [mem_intRange] at hi
    refine ⟨by omega, by omega⟩
  obtain ⟨l2, e2, heq, hreg, hnoget⟩ :=
    extendAux_spec st.mode (intRange st.loopCount nl) st.leds st.loops hb
  unfold C6Prop
  rw [handleHeartbeatMessage_parse, if_neg (by simp), if_pos (by omega), heq]
  exact ⟨_, _, rfl, rfl, rfl, rfl, hreg, hnoget⟩

/-- Witness for C6's amended theorem: the scenario of the claim,
`loopCount` 2 → 3 under engine id 7. -/
theorem C6_extension_no_query_witness :
    (0 : Int) ≤ hbState.loopCount ∧ hbState.loopCount < 3 ∧
    (3 : Int) ≤ (hbState.leds.length : Int) ∧ C6Prop hbState "x" "1.0" 3 :=
  ⟨by decide, by decide, by decide, C6_extension_no_query hbState "x" "1.0" 3
    (by decide) (by decide) (by decide)⟩

/-- Evaluating `handleCtrlMessage` on a message whose first argument is an
int32: the handler reduces to its three loop-index branches. -/
theorem handleCtrlMessage_cons (st : AppState) (n : Int) (rest : List OSCArg) :
    handleCtrlMessage st (OSCArg.int32 n :: rest) =
      (if n = -2 then
        match rest.get? 0 with
        | none => none
        | some (OSCArg.str k) =>
          if k = "selected_loop_num" then
            match rest.get? 1 with
            | none => none
            | some (OSCArg.float32 v) => some ({ st with selectedLoop := v }, selectLoopEvs v)
            | some _ => some (st, [])
          else some (st, [])
        | some _ => some (st, [])
      else if n < 0 then some (st, [])
      else
        match rest.get? 0 with
        | none => none
        | some (OSCArg.str k) =>
          if k = "state" then
            match rest.get? 1 with
            | none => none
            | some (OSCArg.float32 v) =>
              match st.loops.get? n.toNat with
              | none => none
              | some loop =>
                let r := updateLoopLedState st.mode st.leds loop v
                some ({ st with leds := r.leds, loops := st.loops.set n.toNat r.loop,
                                heartbeat := 5 }, r.evs)
            | some _ => some ({ st with heartbeat := 5 }, [])
          else some ({ st with heartbeat := 5 }, [])
        | some _ => some ({ st with heartbeat := 5 }, [])) := rfl

/-! ## C7 -/

/-- A connected state with a partially consumed countdown. -/
def ctrlState : AppState := { baseState with heartbeat := 2 }

/-- C7 counterexample: a `/ctrl(-2, "selected_loop_num", 3.0)` message from a
state with countdown 2 updates the selected-loop display (field and CC digit
output) but leaves the heartbeat countdown at 2 — it is not reset to 5 as the
claim states. -/
theorem C7_selected_loop_no_reset :
    ((handleCtrlMessage ctrlState
        [OSCArg.int32 (-2), OSCArg.str "selected_loop_num", OSCArg.float32 3]).map
        (fun r => (r.1.selectedLoop, r.1.heartbeat, r.2)))
      = some (3, 2, [Ev.ccOut 113 0, Ev.ccOut 114 3]) ∧
    (2 : Int) ≠ 5 := by decide

/-- Conclusion of the amended C7: every completed `/ctrl` with a non-negative
loop index resets the countdown to 5; the `-2` selected-loop message updates
the display but leaves the countdown untouched; any other negative index is
ignored entirely. -/
def C7Prop (st : AppState) (n v : Int) (rest : List OSCArg) : Prop :=
  (∀ st' evs, handleCtrlMessage st (OSCArg.int32 n :: rest) = some (st', evs) →
    st'.heartbeat = 5) ∧
  handleCtrlMessage st [OSCArg.int32 (-2), OSCArg.str "selected_loop_num", OSCArg.float32 v]
    = some ({ st with selectedLoop := v }, selectLoopEvs v) ∧
  (∀ m : Int, m < 0 → m ≠ -2 → handleCtrlMessage st (OSCArg.int32 m :: rest) = some (st, []))

/-- C7 amended: only `/ctrl` messages with a non-negative loop index reset the
heartbeat countdown (to 5, in every completed run); the `loopIndex == -2`
selected-loop message updates the selected-loop display without resetting the
countdown, and a negative loop index other than -2 is ignored. -/
theorem C7_heartbeat_reset_amended (st : AppState) (n v : Int) (rest : List OSCArg)
    (hn : 0 ≤ n) : C7Prop st n v rest := by
  refine ⟨?_, rfl, ?_⟩
  · intro st' evs hres
    rw [handleCtrlMessage_cons, if_neg (by omega), if_neg (by omega)] at hres
    repeat' split at hres
    all_goals cases hres
    all_goals rfl
  · intro m hm hm2
    rw [handleCtrlMessage_cons, if_neg hm2, if_pos hm]

/-- Witness for C7's amended theorem (index 0, display value 3, no trailing
arguments). -/
theorem C7_heartbeat_reset_amended_witness :
    (0 : Int) ≤ 0 ∧ C7Prop ctrlState 0 3 [] :=
  ⟨by decide, C7_heartbeat_reset_amended ctrlState 0 3 [] (by decide)⟩

/-! ## C8 -/

/-- A connected state with two loops carrying live states. -/
def pingAckState : AppState :=
  { baseState with
      engineId := 7
      loopCount := 2
      loops := [⟨0, LoopStates.Playing⟩, ⟨1, LoopStates.Muted⟩]
      heartbeat := 2 }

/-- C8 counterexample: a `/pingack` whose single argument has the wrong type
(int32 instead of the hostUrl string) is not dropped: the handler still runs,
resets the heartbeat countdown from 2 to 5, wipes the two live loop states
back to Off by rebuilding the collection from the stale stored loop count, and
emits register/get/global-register requests. -/
theorem C8_malformed_pingack_mutates :
    ((handlePingAckMessage pingAckState [OSCArg.int32 42]).map
        (fun r => (r.1.loops, r.1.heartbeat, r.2)))
      = some ([⟨0, LoopStates.Off⟩, ⟨1, LoopStates.Off⟩], 5,
          [Ev.oscRegisterAuto 0, Ev.oscGet 0, Ev.oscRegisterAuto 1, Ev.oscGet 1,
           Ev.oscRegisterGlobal]) ∧
    pingAckState.heartbeat = 2 ∧
    pingAckState.loops = [⟨0, LoopStates.Playing⟩, ⟨1, LoopStates.Muted⟩] ∧
    ([(⟨0, LoopStates.Off⟩ : Loop), ⟨1, LoopStates.Off⟩] : List Loop) ≠ pingAckState.loops
    := by decide

/-- Evaluating `handlePingAckMessage` on a single wrong-typed int32 argument:
no field of the positional parse matches, so the state parsed into is the old
state, and the handler proceeds with the stale stored loop count. -/
theorem handlePingAckMessage_int32 (st : AppState) (n : Int) :
    handlePingAckMessage st [OSCArg.int32 n] =
      (if (0 : Int) < st.loopCount then
        match buildLoopsAux st.leds (intRange 0 st.loopCount) with
        | some (ls, evs) =>
          some ({ st with loops := ls, heartbeat := 5 }, evs ++ [Ev.oscRegisterGlobal])
        | none => none
      else some ({ st with heartbeat := 5 }, [])) := rfl

/-- Conclusion of the amended C8: `/ctrl` drops a message whose first argument
is not an int32 without any mutation; `/pingack` does not drop malformed
messages — a lone wrong-typed argument still resets the countdown and, when
the stored loop count is positive, rebuilds the loop collection. -/
def C8Prop (st : AppState) (a : OSCArg) (rest : List OSCArg) (n : Int) : Prop :=
  handleCtrlMessage st (a :: rest) = some (st, []) ∧
  ∃ st' evs, handlePingAckMessage st [OSCArg.int32 n] = some (st', evs) ∧
    st'.heartbeat = 5 ∧
    (0 < st.loopCount →
      st'.loops = (intRange 0 st.loopCount).map (fun i => ⟨i, LoopStates.Off⟩) ∧
      Ev.oscRegisterGlobal ∈ evs)

/-- C8 amended: the "logged and dropped without state mutation" behaviour
holds for `/ctrl` messages whose first argument has the wrong type, but not
for `/pingack`: its positional parse skips mismatched positions and the
handler still resets the heartbeat countdown and rebuilds the loop collection
whenever the stored loop count is positive. -/
theorem C8_malformed_amended (st : AppState) (a : OSCArg) (rest : List OSCArg) (n : Int)
    (ha : ∀ m : Int, a ≠ OSCArg.int32 m)
    (hcnt : st.loopCount ≤ (st.leds.length : Int)) :
    C8Prop st a rest n := by
  refine ⟨?_, ?_⟩
  · cases a with
    | int32 m => exact absurd rfl (ha m)
    | float32 v => rfl
    | str s0 => rfl
  · rw [handlePingAckMessage_int32]
    by_cases hpos : (0 : Int) < st.loopCount
    · have hb : ∀ i ∈ intRange 0 st.loopCount, 0 ≤ i ∧ i.toNat < st.leds.length := by
        intro i hi
        rw [mem_intRange] at hi
        refine ⟨hi.1, by omega⟩
      obtain ⟨evs, heq, _⟩ := buildLoopsAux_spec st.leds _ hb
      rw [if_pos hpos, heq]
      exact ⟨_, _, rfl, rfl, fun _ => ⟨rfl, by simp⟩⟩
    · rw [if_neg hpos]
      exact ⟨_, _, rfl, rfl, fun hc => absurd hc hpos⟩

/-- Witness for C8's amended theorem: wrong-typed `/ctrl` head (a string) and
the `/pingack(42)` of the counterexample state. -/
theorem C8_malformed_amended_witness :
    (∀ m : Int, OSCArg.str "x" ≠ OSCArg.int32 m) ∧
    pingAckState.loopCount ≤ (pingAckState.leds.length : Int) ∧
    C8Prop pingAckState (OSCArg.str "x") [] 42 := by
  refine ⟨fun m h => OSCArg.noConfusion h, by decide, ?_⟩
  exact C8_malformed_amended pingAckState (OSCArg.str "x") [] 42
    (fun m h => OSCArg.noConfusion h) (by decide)

/-! ## C9 -/

/-- A state with exactly two loops, for the bounds counterexample. -/
def boundsState : AppState :=
  { baseState with loops := [⟨0, LoopStates.Off⟩, ⟨1, LoopStates.Off⟩], loopCount := 2 }

/-- C9 counterexample: in the model an out-of-bounds access is `none`, a
completed call `some`.  Both of the claim's universal unsafety statements fail
at concrete inputs: a `/ctrl` with loopIndex 99 ≥ loopCount = 2 whose key is
not "state" completes without touching the loop array, and a non-empty
two-argument `/ctrl` (int32 0, float32 1) completes without dereferencing past
the end — each merely resets the countdown. -/
theorem C9_no_oob_counterexample :
    handleCtrlMessage boundsState [OSCArg.int32 99, OSCArg.str "x", OSCArg.float32 1]
      = some ({ boundsState with heartbeat := 5 }, []) ∧
    handleCtrlMessage boundsState [OSCArg.int32 0, OSCArg.float32 1]
      = some ({ boundsState with heartbeat := 5 }, []) := by decide

/-- Conclusion of the amended C9: with a non-negative index, (i) the
preconditions `loopIndex < loops.length` and ≥ 3 arguments make processing of
a "state"-shaped message safe (the call completes); (ii) the "state"/float
message with `loopIndex ≥ loops.length` indexes the loop array out of bounds;
(iii) the one-argument message dereferences past the end of the argument
list. -/
def C9Prop (st : AppState) (n v : Int) (a2 : OSCArg) (rest : List OSCArg) : Prop :=
  (n.toNat < st.loops.length →
    (handleCtrlMessage st (OSCArg.int32 n :: OSCArg.str "state" :: a2 :: rest)).isSome) ∧
  ((st.loops.length : Int) ≤ n →
    handleCtrlMessage st [OSCArg.int32 n, OSCArg.str "state", OSCArg.float32 v] = none) ∧
  handleCtrlMessage st [OSCArg.int32 n] = none

/-- C9 amended: `handleCtrlMessage` performs no bounds or arity check beyond
non-emptiness and the first argument's type.  Processing a non-negative-index
"state" message is safe under the preconditions `0 ≤ loopIndex < loops.length`
and at least three arguments; violating either precondition can access out of
bounds — a "state" message with a float value and `loopIndex ≥ loops.length`
indexes the loop array out of bounds, and a lone non-negative int32 argument
dereferences past the end of the argument list — but not every violating
message does (see the counterexample). -/
theorem C9_bounds_amended (st : AppState) (n v : Int) (a2 : OSCArg) (rest : List OSCArg)
    (hn : 0 ≤ n) : C9Prop st n v a2 rest := by
  refine ⟨?_, ?_, ?_⟩
  · intro hlt
    have hg := List.get?_eq_get hlt
    cases a2 with
    | int32 m => rw [handleCtrlMessage_cons, if_neg (by omega), if_neg (by omega)]; rfl
    | str s2 => rw [handleCtrlMessage_cons, if_neg (by omega), if_neg (by omega)]; rfl
    | float32 w =>
      rw [handleCtrlMessage_cons, if_neg (by omega), if_neg (by omega)]
      simp only [List.get?, hg]
      rfl
  · intro hge
    have hnone : st.loops.get? n.toNat = none := by
      rw [List.get?_eq_none]
      omega
    rw [handleCtrlMessage_cons, if_neg (by omega), if_neg (by omega)]
    simp only [List.get?, hnone, ite_true]
  · rw [handleCtrlMessage_cons, if_neg (by omega), if_neg (by omega)]
    rfl

/-- Witness for C9's amended theorem at index 1 in the two-loop state. -/
theorem C9_bounds_amended_witness :
    (0 : Int) ≤ 1 ∧ C9Prop boundsState 1 2 (OSCArg.float32 2) [] :=
  ⟨by decide, C9_bounds_amended boundsState 1 2 (OSCArg.float32 2) [] (by decide)⟩

/-! ## C10 -/

/-- Conclusion of C10: with the fixed pool of 10 LEDs, building or extending
the loop collection completes exactly when the reported loop count fits the
pool — a `/pingack` or `/heartbeat` reporting more than 10 loops indexes the
LED pool out of bounds (modelled `none`), and one reporting at most 10
completes. -/
def C10Prop (st : AppState) (host ver : String) (nl uid : Int) : Prop :=
  (nl ≤ 10 → (handlePingAckMessage st (hbArgs host ver nl uid)).isSome) ∧
  (10 < nl → handlePingAckMessage st (hbArgs host ver nl uid) = none) ∧
  (uid ≠ st.engineId → 10 < nl → handleHeartbeatMessage st (hbArgs host ver nl uid) = none) ∧
  (uid = st.engineId → 10 < nl → handleHeartbeatMessage st (hbArgs host ver nl uid) = none) ∧
  (nl ≤ 10 → (handleHeartbeatMessage st (hbArgs host ver nl uid)).isSome)

/-- C10: loop creation binds each new loop by index into the fixed 10-element
LED pool with no bounds check, so every loop-collection build (`/pingack`,
`/heartbeat` rebuild) or extension (`/heartbeat` growth) is safe exactly under
the precondition `loopCount ≤ 10`; a reported count above 10 accesses the LED
array out of bounds on every path that reaches index 10. -/
theorem C10_led_pool_bounds (st : AppState) (host ver : String) (nl uid : Int)
    (hpool : st.leds.length = 10) (h0 : 0 ≤ st.loopCount) (hsane : st.loopCount ≤ 10) :
    C10Prop st host ver nl uid := by
  have hoob : ¬(0 ≤ (10 : Int) ∧ (10 : Int).toNat < st.leds.length) := by
    rw [hpool]
    omega
  refine ⟨?_, ?_, ?_, ?_, ?_⟩
  · intro hle
    rw [handlePingAckMessage_parse]
    by_cases hpos : (0 : Int) < nl
    · have hb : ∀ i ∈ intRange 0 nl, 0 ≤ i ∧ i.toNat < st.leds.length := by
        intro i hi
        rw [mem_intRange] at hi
        refine ⟨hi.1, by omega⟩
      obtain ⟨evs, heq, _⟩ := buildLoopsAux_spec st.leds _ hb
      rw [if_pos hpos, heq]
      rfl
    · rw [if_neg hpos]
      rfl
  · intro hgt
    rw [handlePingAckMessage_parse, if_pos (by omega : (0 : Int) < nl),
      buildLoopsAux_none st.leds _ ⟨10, (mem_intRange 0 nl 10).mpr (by omega), hoob⟩]
  · intro hne hgt
    rw [handleHeartbeatMessage_parse, if_pos hne, if_pos (by omega : (0 : Int) < nl),
      rebuildAux_none st.mode _ st.leds [] ⟨10, (mem_intRange 0 nl 10).mpr (by omega), hoob⟩]
  · intro heq hgt
    rw [handleHeartbeatMessage_parse, if_neg (by simp [heq]),
      if_pos (by omega : st.loopCount ≠ nl),
      extendAux_none st.mode _ st.leds st.loops
        ⟨10, (mem_intRange st.loopCount nl 10).mpr (by omega), hoob⟩]
  · intro hle
    rw [handleHeartbeatMessage_parse]
    by_cases hne : uid ≠ st.engineId
    · rw [if_pos hne]
      by_cases hpos : (0 : Int) < nl
      · have hb : ∀ i ∈ intRange 0 nl, 0 ≤ i ∧ i.toNat < st.leds.length := by
          intro i hi
          rw [mem_intRange] at hi
          refine ⟨hi.1, by omega⟩
        obtain ⟨l2, e2, heq2, _, _⟩ := rebuildAux_spec st.mode _ st.leds [] hb
        rw [if_pos hpos, heq2]
        rfl
      · rw [if_neg hpos]
        rfl
    · rw [if_neg hne]
      by_cases hc : st.loopCount ≠ nl
      · have hb : ∀ i ∈ intRange st.loopCount nl, 0 ≤ i ∧ i.toNat < st.leds.length := by
          intro i hi
          rw [mem_intRange] at hi
          refine ⟨by omega, by omega⟩
        obtain ⟨l2, e2, heq2, _, _⟩ := extendAux_spec st.mode _ st.leds st.loops hb
        rw [if_pos hc, heq2]
        rfl
      · rw [if_neg hc]
        rfl

/-- Witness for C10 in the two-loop state, with a heartbeat reporting 11
loops from a different engine id. -/
theorem C10_led_pool_bounds_witness :
    boundsState.leds.length = 10 ∧ (0 : Int) ≤ boundsState.loopCount ∧
    boundsState.loopCount ≤ 10 ∧ C10Prop boundsState "h" "v" 11 3 :=
  ⟨by decide, by decide, by decide,
    C10_led_pool_bounds boundsState "h" "v" 11 3 (by decide) (by decide) (by decide)⟩

/-- Witness for C4's amended theorem at pedal 0 (controller value 1). -/
theorem C4_up_uses_current_mode_witness :
    ((1 : Int) ≤ 1 ∧ (1 : Int) ≤ 4) ∧
    ((handleIncomingMidiMessage baseState 104 1).evs
        = [Ev.noteOn baseState.channel (baseState.baseNote + baseState.mode + (1 - 1)) 127] ∧
      (handleIncomingMidiMessage baseState 104 1).st = baseState ∧
      (handleIncomingMidiMessage connectedState 105 1).evs
        = [Ev.noteOff connectedState.channel
            (connectedState.baseNote + connectedState.mode + (1 - 1)) 0] ∧
      (handleIncomingMidiMessage connectedState 105 1).st = connectedState ∧
      (handleIncomingMidiMessage baseState 104 5).st.mode
        = (if baseState.mode > 0 then 0 else 20) ∧
      (handleIncomingMidiMessage baseState 104 5).st.baseNote = baseState.baseNote ∧
      (handleIncomingMidiMessage baseState 104 5).st.channel = baseState.channel) :=
  ⟨by decide, C4_up_uses_current_mode baseState connectedState 1 (by decide)⟩

end Loop4r
